import Mathlib

/-!
Verification of the qdrant-orm query/filter translation and fusion engine.

This file gives a shallow embedding of the core of the repository:
  * `qdrant_orm/engine.py` : `_convert_id_for_qdrant` (identifier reconciliation);
  * `build/lib/qdrant_orm/query.py` : `Query._make_qdrant_condition`,
    `Query._build_qdrant_filter` (filter translation), `Query.get`,
    `Query.all`, `Query.count` (dispatch), and
    `Query._execute_combined_vector_search` (weighted fusion).

Python floating-point numbers are modelled as rationals, Python dicts as
association lists in insertion order, and the external engine client as a
record of functions returning `Except` (an exception is an `.error`).
-/

namespace QdrantOrm

/-- A Python value as it can appear as a filter condition value: `None`,
a scalar (int, float, str, bool), a list of values, or the gt/gte/lt/lte
dict accepted by the values_count operator. -/
inductive FilterValue where
  | none : FilterValue
  | int : Int → FilterValue
  | float : ℚ → FilterValue
  | str : String → FilterValue
  | bool : Bool → FilterValue
  | list : List FilterValue → FilterValue
  | vdict : Option ℚ → Option ℚ → Option ℚ → Option ℚ → FilterValue

/-- The declared scalar kind of a model field (`qdrant_orm/types.py`):
`Integer`, `Float`, `String`, `Boolean`, or any other `DataType` subclass
(`Array`, `Vector`, ...), which `_make_qdrant_condition` treats by the
fallback str-cast branch. -/
inductive FieldType where
  | integer : FieldType
  | float : FieldType
  | string : FieldType
  | boolean : FieldType
  | other : FieldType
deriving DecidableEq

/-- One translated native condition (the `qdrant_client` condition model):
`FieldCondition` with a `MatchValue`, `MatchAny`, `MatchExcept`,
`MatchText`, `Range` or `ValuesCount` payload, or an
`IsEmptyCondition` / `IsNullCondition`. The payloads hold exactly the
(possibly cast) Python values the source passes to the constructors. -/
inductive QdrantCondition where
  | matchValue (key : String) (value : FilterValue)
  | matchAny (key : String) (value : FilterValue)
  | matchExcept (key : String) (value : List FilterValue)
  | matchText (key : String) (value : FilterValue)
  | range (key : String) (gt gte lt lte : Option FilterValue)
  | isEmpty (key : String)
  | isNull (key : String)
  | valuesCount (key : String) (gt gte lt lte : Option ℚ)

/-- Result of `Query._make_qdrant_condition`: Python `None` (condition
skipped), a single condition object, or a list of conditions (the
`contains_all` expansion). -/
inductive CondResult where
  | none : CondResult
  | single (c : QdrantCondition) : CondResult
  | multi (cs : List QdrantCondition) : CondResult

/-- Truncation toward zero, the behaviour of Python `int()` on a float. -/
def pyTrunc (q : ℚ) : Int := if 0 ≤ q then ⌊q⌋ else ⌈q⌉

/-- Python `str(type(v))`, used only inside error messages. -/
def pyTypeName : FilterValue → String
  | .none => "<class NoneType>"
  | .int _ => "<class int>"
  | .float _ => "<class float>"
  | .str _ => "<class str>"
  | .bool _ => "<class bool>"
  | .list _ => "<class list>"
  | .vdict _ _ _ _ => "<class dict>"

/-- Python `str(v)` for the values the translation casts. The textual
form of a float is modelled by the rational literal; `list`/`dict`
reprs are abbreviated (the translated paths never cast those). -/
def pyStrCast : FilterValue → String
  | .none => "None"
  | .int n => toString n
  | .float q => toString q
  | .str s => s
  | .bool b => if b then "True" else "False"
  | .list _ => "<list>"
  | .vdict _ _ _ _ => "<dict>"

/-- Python `bool(v)` (truthiness). -/
def pyBoolCast : FilterValue → Bool
  | .none => false
  | .int n => decide (n ≠ 0)
  | .float q => decide (q ≠ 0)
  | .str s => decide (s ≠ "")
  | .bool b => b
  | .list xs => !xs.isEmpty
  | .vdict _ _ _ _ => true

/-- Python `int(v)`: ints and bools pass through, floats truncate toward
zero, strings parse as a decimal integer or raise, anything else raises
a TypeError. -/
def pyIntCast : FilterValue → Except String Int
  | .int n => .ok n
  | .bool b => .ok (if b then 1 else 0)
  | .float q => .ok (pyTrunc q)
  | .str s =>
    match s.toInt? with
    | some n => .ok n
    | Option.none => .error ("invalid literal for int() with base 10: " ++ s)
  | v => .error ("int() argument must not be " ++ pyTypeName v)

/-- The wrapping `val = [val] if not isinstance(val, (list, tuple))`
used by the `in` and `not_in` branches. -/
def asList : FilterValue → List FilterValue
  | .list xs => xs
  | v => [v]

/-- The capability error raised for `not_in` on a float field
(`query.py` lines 277 and 299). -/
def floatNotInMsg (key : String) : String :=
  "not_in filter is not supported for float field " ++ key ++ ". " ++
  "Qdrant does not support MatchExcept for float values. " ++
  "Consider using integer or string fields for exact matching, " ++
  "or use range filters (>, <, >=, <=) for float comparisons."

/-- The `MatchExcept` condition built in the `not_in` branch once the
exclusion list has been cast. -/
def mkExcept (key : String) (vs : List FilterValue) : CondResult :=
  .single (.matchExcept key vs)

/-- The body of `Query._make_qdrant_condition`
(`build/lib/qdrant_orm/query.py` lines 237-352), as a function of the
field-type table of the model class (`_fields[key].field_type`), the
condition key, operator token and value. A raised `ValueError` is an
`.error`. -/
def makeCondCore (ft : String → Option FieldType) (key op : String)
    (val : FilterValue) : Except String CondResult :=
  match val with
  | .none => .ok .none
  | _ =>
    if op = "==" then .ok (.single (.matchValue key val))
    else if op = "!=" ∨ op = "ne" then .ok (.single (.matchValue key val))
    else if op = "in" then .ok (.single (.matchAny key (.list (asList val))))
    else if op = "not_in" then
      let vs := asList val
      match ft key with
      | some FieldType.integer =>
        (vs.mapM pyIntCast).map fun ns => mkExcept key (ns.map FilterValue.int)
      | some FieldType.string =>
        .ok (mkExcept key (vs.map fun v => .str (pyStrCast v)))
      | some FieldType.float => .error (floatNotInMsg key)
      | some FieldType.boolean =>
        .ok (mkExcept key (vs.map fun v => .bool (pyBoolCast v)))
      | some FieldType.other =>
        .ok (mkExcept key (vs.map fun v => .str (pyStrCast v)))
      | Option.none =>
        -- fallback: infer the cast from the first element
        match vs with
        | [] => .ok (mkExcept key vs)
        | first :: _ =>
          match first with
          | .int _ | .bool _ =>
            (vs.mapM pyIntCast).map fun ns => mkExcept key (ns.map FilterValue.int)
          | .str _ => .ok (mkExcept key (vs.map fun v => .str (pyStrCast v)))
          | .float _ => .error (floatNotInMsg key)
          | _ => .ok (mkExcept key (vs.map fun v => .str (pyStrCast v)))
    else if op = "contains" then .ok (.single (.matchValue key val))
    else if op = "contains_any" then
      match val with
      | .list xs =>
        .ok (.single (.matchAny key (.list (xs.map fun v => .str (pyStrCast v)))))
      | v => .ok (.single (.matchAny key v))
    else if op = "contains_all" then
      match val with
      | .list xs =>
        .ok (.multi (xs.map fun item => .matchValue key (.str (pyStrCast item))))
      | _ => .ok (.multi [])
    else if op = ">" then .ok (.single (.range key (some val) Option.none Option.none Option.none))
    else if op = ">=" then .ok (.single (.range key Option.none (some val) Option.none Option.none))
    else if op = "<" then .ok (.single (.range key Option.none Option.none (some val) Option.none))
    else if op = "<=" then .ok (.single (.range key Option.none Option.none Option.none (some val)))
    else if op = "is_empty" then .ok (.single (.isEmpty key))
    else if op = "is_null" then .ok (.single (.isNull key))
    else if op = "text_match" then .ok (.single (.matchText key val))
    else if op = "values_count" then
      match val with
      | .vdict a b c d => .ok (.single (.valuesCount key a b c d))
      | v =>
        .error ("values_count operator requires a dict with gt/gte/lt/lte keys, got "
          ++ pyTypeName v)
    else .error ("Unsupported operator: " ++ op)

/-- A `qdrant_orm.filters.Filter`: either a leaf condition
`(field_name, operator, value)` or a `FilterGroup(logic, filters)`.
`FilterGroup.__init__` calls `super().__init__("", logic, None)`, so a
group seen as a plain condition has field name `""`, operator equal to
its logic token, and value `None`. -/
inductive PyFilter where
  | cond (field_name : String) (op : String) (value : FilterValue)
  | group (logic : String) (filters : List PyFilter)

/-- `filt.field_name`. -/
def keyOf : PyFilter → String
  | .cond k _ _ => k
  | .group _ _ => ""

/-- `filt.operator`. -/
def opOf : PyFilter → String
  | .cond _ o _ => o
  | .group l _ => l

/-- `filt.value`. -/
def valueOf : PyFilter → FilterValue
  | .cond _ _ v => v
  | .group _ _ => .none

/-- `Query._make_qdrant_condition` applied to a filter object. -/
def makeQdrantCondition (ft : String → Option FieldType) (f : PyFilter) :
    Except String CondResult :=
  makeCondCore ft (keyOf f) (opOf f) (valueOf f)

/-- The three buckets of a native `qdrant_client` `Filter`. The source
always passes lists (never `None`) for all three buckets. -/
structure Buckets where
  must : List QdrantCondition
  must_not : List QdrantCondition
  should : List QdrantCondition

/-- `filt.operator in ("not_in", "!=")`. -/
def isNeg (op : String) : Bool := op = "not_in" ∨ op = "!="

/-- Processing of one child of a `FilterGroup` inside
`Query._build_qdrant_filter` (lines 203-213): a `None` result is
skipped; a list result goes to must-not when the child operator is
negative and to must otherwise; a single condition goes to must for
`and` logic and to should otherwise. -/
def addGroupChild (ft : String → Option FieldType) (logic : String)
    (b : Buckets) (child : PyFilter) : Except String Buckets := do
  match ← makeQdrantCondition ft child with
  | .none => pure b
  | .multi cs =>
    if isNeg (opOf child) then pure { b with must_not := b.must_not ++ cs }
    else pure { b with must := b.must ++ cs }
  | .single c =>
    if logic = "and" then pure { b with must := b.must ++ [c] }
    else pure { b with should := b.should ++ [c] }

/-- Processing of one top-level filter inside
`Query._build_qdrant_filter` (lines 200-228). -/
def addTopFilter (ft : String → Option FieldType) (b : Buckets) :
    PyFilter → Except String Buckets
  | .group logic children => children.foldlM (addGroupChild ft logic) b
  | .cond k o v => do
    match ← makeCondCore ft k o v with
    | .none => pure b
    | .multi cs =>
      if isNeg o then pure { b with must_not := b.must_not ++ cs }
      else pure { b with must := b.must ++ cs }
    | .single c =>
      if isNeg o then pure { b with must_not := b.must_not ++ [c] }
      else pure { b with must := b.must ++ [c] }

/-- The bucket-filling loop of `Query._build_qdrant_filter`. -/
def buildBuckets (ft : String → Option FieldType) (filters : List PyFilter) :
    Except String Buckets :=
  filters.foldlM (addTopFilter ft) ⟨[], [], []⟩

/-- `Query._build_qdrant_filter` (lines 194-235): `None` when no filters
are attached, otherwise a `Filter` with the three bucket lists. A
`ValueError` raised by condition translation propagates. -/
def buildQdrantFilter (ft : String → Option FieldType)
    (filters : List PyFilter) : Except String (Option Buckets) :=
  if filters.isEmpty then .ok Option.none
  else (buildBuckets ft filters).map some

/-! ### Identifier reconciliation (`qdrant_orm/engine.py`, `_convert_id_for_qdrant`) -/

/-- A Python `uuid.UUID` object, identified by its 128-bit value. -/
structure UUIDv where
  val : Nat
deriving DecidableEq

/-- An identifier value as `_convert_id_for_qdrant` can receive it: a
`uuid.UUID` object, a `str`, an `int`, or any other object, the latter
represented by its `str(...)` form (the only way the source consumes it). -/
inductive IdValue where
  | uuid (u : UUIDv) : IdValue
  | str (s : String) : IdValue
  | int (n : Int) : IdValue
  | other (strForm : String) : IdValue
deriving DecidableEq

/-- The lowercase hex digit of `n % 16`. -/
def hexChar (n : Nat) : Char :=
  match n % 16 with
  | 0 => '0' | 1 => '1' | 2 => '2' | 3 => '3' | 4 => '4' | 5 => '5' | 6 => '6' | 7 => '7'
  | 8 => '8' | 9 => '9' | 10 => 'a' | 11 => 'b' | 12 => 'c' | 13 => 'd' | 14 => 'e'
  | _ => 'f' 

/-- `len` hex digits of `n`, most significant first (leading zeros kept,
excess high digits dropped) — the `%032x` rendering used by `str(UUID)`. -/
def toHexDigits : Nat → Nat → List Char
  | _, 0 => []
  | n, k + 1 => toHexDigits (n / 16) k ++ [hexChar n]

/-- `str(uuid.UUID)`: canonical 8-4-4-4-12 lowercase hex form. -/
def uuidStr (u : UUIDv) : String :=
  let ds := toHexDigits u.val 32
  String.mk (ds.take 8 ++ '-' :: ((ds.drop 8).take 4 ++ '-' :: ((ds.drop 12).take 4
    ++ '-' :: ((ds.drop 16).take 4 ++ '-' :: ds.drop 20))))

/-- `[0-9a-f]`. -/
def isLowerHexDigit (c : Char) : Bool :=
  (48 ≤ c.toNat ∧ c.toNat ≤ 57) ∨ (97 ≤ c.toNat ∧ c.toNat ≤ 102)

/-- Consume exactly `k` lowercase hex digits, returning the rest. -/
def hexRun : Nat → List Char → Option (List Char)
  | 0, cs => some cs
  | _ + 1, [] => Option.none
  | k + 1, c :: cs => if isLowerHexDigit c then hexRun k cs else Option.none

/-- Consume the `[0-9a-f]{8}-[0-9a-f]{4}-[0-9a-f]{4}-[0-9a-f]{4}-[0-9a-f]{12}`
pattern, returning the remainder of the character list on success. -/
def uuidPatternRest (cs : List Char) : Option (List Char) := do
  let r1 ← hexRun 8 cs
  match r1 with
  | '-' :: r1 =>
    let r2 ← hexRun 4 r1
    match r2 with
    | '-' :: r2 =>
      let r3 ← hexRun 4 r2
      match r3 with
      | '-' :: r3 =>
        let r4 ← hexRun 4 r3
        match r4 with
        | '-' :: r4 => hexRun 12 r4
        | _ => Option.none
      | _ => Option.none
    | _ => Option.none
  | _ => Option.none

/-- The canonical (lowercase) UUID textual form: the full string matches
the UUID pattern exactly. -/
def isCanonicalUUIDString (s : String) : Bool :=
  match uuidPatternRest s.data with
  | some [] => true
  | _ => false

/-- The check the source performs:
`re.match` against the UUID pattern. The string is lowercased first,
and Python `$` also accepts a single trailing newline. -/
def reMatchesUUID (s : String) : Bool :=
  match uuidPatternRest (s.data.map Char.toLower) with
  | some [] => true
  | some [c] => c = '\n'
  | _ => false

/-- `uuid.NAMESPACE_DNS` = 6ba7b810-9dad-11d1-80b4-00c04fd430c8. -/
def NAMESPACE_DNS : UUIDv := ⟨0x6ba7b8109dad11d180b400c04fd430c8⟩

/-- Modelled from the spec: standard name-based UUID derivation
(version 5 equivalent) from a fixed namespace and a name. The SHA-1
hash of `uuid.uuid5` lives in the Python standard library, outside this
repository; it is abstracted by a deterministic 128-bit digest of the
namespace and the name, with the version nibble forced to 5 and the
RFC variant bits forced to `10`. -/
def uuid5 (ns : UUIDv) (name : String) : UUIDv :=
  let h := (name.data.foldl (fun a c => (a * 131 + c.toNat) % 2 ^ 128) (ns.val % 2 ^ 128))
  let setNibble : Nat → Nat → Nat → Nat := fun v place d =>
    v - (v / 16 ^ place % 16) * 16 ^ place + d * 16 ^ place
  ⟨setNibble (setNibble h 19 5) 15 (8 + h / 16 ^ 15 % 4)⟩

/-- `_convert_id_for_qdrant` (`qdrant_orm/engine.py` lines 106-134):
a `uuid.UUID` becomes its canonical string; a string matching the UUID
regex (after lowercasing) is returned unchanged; a non-negative int is
returned unchanged; any other string is mapped to
`str(uuid5(NAMESPACE_DNS, s))`; anything else to
`str(uuid5(NAMESPACE_DNS, str(x)))`. -/
def convert_id_for_qdrant : IdValue → IdValue
  | .uuid u => .str (uuidStr u)
  | .str s =>
    if reMatchesUUID s then .str s
    else .str (uuidStr (uuid5 NAMESPACE_DNS s))
  | .int n =>
    if 0 ≤ n then .int n
    else .str (uuidStr (uuid5 NAMESPACE_DNS (toString n)))
  | .other r => .str (uuidStr (uuid5 NAMESPACE_DNS r))

/-! ### Query dispatch and fusion (`build/lib/qdrant_orm/query.py`) -/

/-- A `NamedVector(name=..., vector=...)` request payload. -/
structure NamedVectorReq where
  name : String
  vector : List ℚ
deriving DecidableEq

/-- The keyword arguments of a `client.search(...)` call. Optional
fields model keys that are present only on some paths (`offset` and
`search_params` are set by the single-field path only; `score_threshold`
and `query_filter` only when truthy). -/
structure SearchRequest where
  collection_name : String
  limit : Nat
  offset : Option Nat
  with_payload : Bool
  with_vectors : Bool
  query_vector : NamedVectorReq
  search_params_hnsw_ef : Option Nat
  score_threshold : Option ℚ
  query_filter : Option Buckets

/-- The keyword arguments of a `client.scroll(...)` call. -/
structure ScrollRequest where
  collection_name : String
  limit : Nat
  offset : Nat
  with_payload : Bool
  with_vectors : Bool
  scroll_filter : Option Buckets

/-- The keyword arguments of a `client.count(...)` call. -/
structure CountRequest where
  collection_name : String
  count_filter : Option Buckets

/-- The keyword arguments of a `client.retrieve(...)` call. -/
structure RetrieveRequest where
  collection_name : String
  ids : List IdValue
  with_payload : Bool
  with_vectors : Bool

/-- A point returned by the engine: its identifier (in string form; the
source also only consumes `str(pt.id)` and uses `pt.id` as a dict key)
and its similarity score. -/
structure Point where
  pid : String
  score : ℚ

/-- The external engine client, the black-box collaborator: each
operation either returns a result or raises (`.error`). -/
structure QClient where
  search : SearchRequest → Except String (List Point)
  scroll : ScrollRequest → Except String (List Point × Option Nat)
  retrieve : RetrieveRequest → Except String (List Point)
  count : CountRequest → Except String Nat

/-- The `_combined_search_params` dict stored by
`Query.combined_vector_search`, with vector-field keys already resolved
to their names. Dicts are association lists in insertion order. -/
structure CombinedParams where
  weights : List (String × ℚ)
  query_vectors : List (String × List ℚ)
  limit : Nat
  score_threshold : Option ℚ

/-- Weight normalization (`query.py` lines 411-416): every declared
weight is divided by the total of all declared weights. -/
def normalizeWeights (ws : List (String × ℚ)) : List (String × ℚ) :=
  let total := (ws.map Prod.snd).sum
  ws.map fun fw => (fw.1, fw.2 / total)

/-- The per-field search request built by
`_execute_combined_vector_search` (lines 422-433): limit is three times
the requested limit, payload and vectors are not fetched, offset and
search-params are not set, and the translated filter of the enclosing
query is attached when truthy. -/
def mkFusionRequest (coll : String) (p : CombinedParams)
    (qf : Option Buckets) (fname : String) (qv : List ℚ) : SearchRequest :=
  { collection_name := coll
    limit := p.limit * 3
    offset := Option.none
    with_payload := false
    with_vectors := false
    query_vector := ⟨fname, qv⟩
    search_params_hnsw_ef := Option.none
    score_threshold := p.score_threshold
    query_filter := qf }

/-- `all_scores[pid] = all_scores.get(pid, 0.0) + s` on an
insertion-ordered dict: update in place if the key exists, append
otherwise. -/
def addScore : List (String × ℚ) → String → ℚ → List (String × ℚ)
  | [], pid, s => [(pid, s)]
  | e :: rest, pid, s =>
    if e.1 = pid then (e.1, e.2 + s) :: rest else e :: addScore rest pid s

/-- One iteration of the per-field loop of
`_execute_combined_vector_search` (lines 418-440), threading the list
of issued search requests and the running scores dict. A field with
non-positive normalized weight or no query vector is skipped; a search
exception is caught and contributes nothing. -/
def fusionStep (searchFn : SearchRequest → Except String (List Point))
    (coll : String) (p : CombinedParams) (qf : Option Buckets)
    (st : List SearchRequest × List (String × ℚ)) (fw : String × ℚ) :
    List SearchRequest × List (String × ℚ) :=
  if fw.2 ≤ 0 then st
  else
    match p.query_vectors.lookup fw.1 with
    | Option.none => st
    | some qv =>
      let req := mkFusionRequest coll p qf fw.1 qv
      match searchFn req with
      | .error _ => (st.1 ++ [req], st.2)
      | .ok hits =>
        (st.1 ++ [req], hits.foldl (fun acc h => addScore acc h.pid (h.score * fw.2)) st.2)

/-- `_execute_combined_vector_search` up to (but not including) the
final sort and truncation: the issued per-field requests and the
accumulated scores dict. The translated filter is computed once (the
source recomputes the same pure value inside the loop); an error
raised by the translation propagates. -/
def executeCombinedFull (searchFn : SearchRequest → Except String (List Point))
    (coll : String) (ft : String → Option FieldType) (filters : List PyFilter)
    (p : CombinedParams) :
    Except String (List SearchRequest × List (String × ℚ)) := do
  let qf ← buildQdrantFilter ft filters
  pure ((normalizeWeights p.weights).foldl (fusionStep searchFn coll p qf) ([], []))

/-- Descending-by-score order on accumulated entries. -/
def scoreGE (a b : String × ℚ) : Prop := b.2 ≤ a.2

instance : DecidableRel scoreGE := fun a b => inferInstanceAs (Decidable (b.2 ≤ a.2))

instance : IsTotal (String × ℚ) scoreGE := ⟨fun a b => le_total b.2 a.2⟩

instance : IsTrans (String × ℚ) scoreGE := ⟨fun _ _ _ h h' => le_trans h' h⟩

/-- `sorted(all_scores.items(), key=lambda x: x[1], reverse=True)`:
stable sort by score, descending. -/
def sortDescByScore (l : List (String × ℚ)) : List (String × ℚ) :=
  l.insertionSort scoreGE

/-- `Query._execute_combined_vector_search` (lines 406-443): the sorted
scores, truncated to the requested limit. -/
def combinedRanked (searchFn : SearchRequest → Except String (List Point))
    (coll : String) (ft : String → Option FieldType) (filters : List PyFilter)
    (p : CombinedParams) : Except String (List (String × ℚ)) :=
  (executeCombinedFull searchFn coll ft filters p).map fun st =>
    (sortDescByScore st.2).take p.limit

/-- `Query._get_combined_search_results` (lines 445-464): run the
fusion, batch-retrieve the ranked identifiers, reorder the batch to the
rank order and convert; a retrieve exception yields the empty list. -/
def getCombinedResults {α : Type} (client : QClient) (ptm : Point → α)
    (coll : String) (ft : String → Option FieldType) (q_with_payload q_with_vectors : Bool)
    (filters : List PyFilter) (p : CombinedParams) : Except String (List α) := do
  let combined ← combinedRanked client.search coll ft filters p
  if combined.isEmpty then pure []
  else
    match client.retrieve ⟨coll, combined.map fun x => .str x.1, q_with_payload, q_with_vectors⟩ with
    | .error _ => pure []
    | .ok points =>
      let ordered := combined.filterMap fun x => points.find? fun pt => pt.pid = x.1
      pure (ordered.map ptm)

/-- The query-vector value attached by `Query.vector_search`: a dense
vector (a list) or a sparse dict with indices and values. -/
inductive VectorValue where
  | dense (v : List ℚ) : VectorValue
  | sparse (indices : List Nat) (values : List ℚ) : VectorValue

/-- Truthiness of `self._vector_value`: a list is truthy when
non-empty; the sparse dict always holds its two keys and is truthy. -/
def vvTruthy : VectorValue → Bool
  | .dense v => !v.isEmpty
  | .sparse _ _ => true

/-- The builder state of a `Query` object. -/
structure QueryState where
  filters : List PyFilter
  vector_field : Option String
  vector_value : Option VectorValue
  limit : Nat
  offset : Nat
  with_payload : Bool
  with_vectors : Bool
  score_threshold : Option ℚ
  combined : Option CombinedParams

/-- The error `Query.get` raises at line 98: the attribute
`_convert_id_for_qdrant` does not exist on the session object
(`QdrantSession` in `engine.py` defines no such method; the reconciler
is a module-level function there, and no subclass or assignment adds it
to the session anywhere in the source). -/
def getAttributeErrorMsg : String :=
  "AttributeError: QdrantSession object has no attribute _convert_id_for_qdrant"

/-- `Query.get` (`build/lib/qdrant_orm/query.py` lines 95-111): the
source evaluates `self._session._convert_id_for_qdrant(id_value)` at
line 98, but the session class has no such method, so every call raises
an `AttributeError` before the `try` block is entered; the
`client.retrieve` call at lines 100-105, the not-found return and the
exception handler that would convert a transport failure into not-found
are unreachable. The client and the identifier are never consulted. -/
def queryGet {α : Type} (_client : QClient) (_ptm : Point → α)
    (_coll : String) (_q : QueryState) (_idv : IdValue) : Except String (Option α) :=
  .error getAttributeErrorMsg

/-- The `client.search` request built by the single-field vector branch
of `Query.all` (lines 139-152). -/
def singleSearchReqOf (coll : String) (q : QueryState) (fname : String)
    (v : List ℚ) (qf : Option Buckets) : SearchRequest :=
  { collection_name := coll
    limit := q.limit
    offset := some q.offset
    with_payload := q.with_payload
    with_vectors := q.with_vectors
    query_vector := ⟨fname, v⟩
    search_params_hnsw_ef := some 256
    score_threshold := q.score_threshold
    query_filter := qf }

/-- The `client.scroll` request built by the scroll branch of
`Query.all` (lines 162-170). -/
def scrollReqOf (coll : String) (q : QueryState) (qf : Option Buckets) : ScrollRequest :=
  ⟨coll, q.limit, q.offset, q.with_payload, q.with_vectors, qf⟩

/-- The scroll branch of `Query.all` (lines 161-176): enumerate with
the translated filter; a scroll exception yields the empty list. -/
def scrollPath {α : Type} (client : QClient) (ptm : Point → α)
    (coll : String) (ft : String → Option FieldType) (q : QueryState) :
    Except String (List α) := do
  let qf ← buildQdrantFilter ft q.filters
  match client.scroll (scrollReqOf coll q qf) with
  | .ok (pts, _) => pure (pts.map ptm)
  | .error _ => pure []

/-- `Query.all` (lines 113-176): fusion when combined parameters exist,
else single-field vector search when both vector field and vector value
are truthy, else scroll. On the sparse branch the source evaluates
`self._vector_field.name` on a string, which raises an AttributeError
before any engine call. -/
def queryAll {α : Type} (client : QClient) (ptm : Point → α)
    (coll : String) (ft : String → Option FieldType) (q : QueryState) :
    Except String (List α) :=
  match q.combined with
  | some p => getCombinedResults client ptm coll ft q.with_payload q.with_vectors q.filters p
  | Option.none =>
    match q.vector_field, q.vector_value with
    | some fname, some vv =>
      if fname ≠ "" ∧ vvTruthy vv = true then
        match vv with
        | .dense v => do
          let qf ← buildQdrantFilter ft q.filters
          match client.search (singleSearchReqOf coll q fname v qf) with
          | .ok pts => pure (pts.map ptm)
          | .error _ => pure []
        | .sparse _ _ =>
          .error "AttributeError: str object has no attribute name"
      else scrollPath client ptm coll ft q
    | _, _ => scrollPath client ptm coll ft q

/-- `Query.count` (lines 182-193): count with the translated filter; a
count exception yields zero. -/
def queryCount (client : QClient) (coll : String)
    (ft : String → Option FieldType) (q : QueryState) : Except String Nat := do
  let qf ← buildQdrantFilter ft q.filters
  match client.count ⟨coll, qf⟩ with
  | .ok n => pure n
  | .error _ => pure 0

/-- `True` exactly on the Python value `None`. -/
def isNoneValue : FilterValue → Bool
  | .none => true
  | _ => false

/-- A top-level filter that contributes nothing to any bucket because
every condition value involved is `None`: a bare condition with value
`None`, or a group all of whose children have value `None`. -/
def skippedTop : PyFilter → Bool
  | .cond _ _ v => isNoneValue v
  | .group _ cs => cs.all fun c => isNoneValue (valueOf c)

/-! ### Translator lemmas -/

lemma buildQdrantFilter_singleton (ft : String → Option FieldType) (x : PyFilter) :
    buildQdrantFilter ft [x] = (addTopFilter ft ⟨[], [], []⟩ x).map some := by
  simp only [buildQdrantFilter, buildBuckets, List.foldlM_cons, List.foldlM_nil,
    List.isEmpty_cons, Bool.false_eq_true, if_false, bind_pure]

lemma makeCondCore_none_val (ft : String → Option FieldType) (key op : String) :
    makeCondCore ft key op FilterValue.none = .ok .none := rfl

lemma makeQdrantCondition_of_none (ft : String → Option FieldType) (f : PyFilter)
    (h : isNoneValue (valueOf f) = true) : makeQdrantCondition ft f = .ok .none := by
  unfold makeQdrantCondition
  cases hv : valueOf f <;> simp [isNoneValue, hv] at h ⊢
  rw [makeCondCore_none_val]

lemma makeCondCore_eq_op (ft : String → Option FieldType) (key : String)
    (v : FilterValue) (h : v ≠ FilterValue.none) :
    makeCondCore ft key "==" v = .ok (.single (.matchValue key v)) := by
  cases v <;> first | exact absurd rfl h | rfl

lemma addTopFilter_cond_single (ft : String → Option FieldType) (b : Buckets)
    (k o : String) (v : FilterValue) (c : QdrantCondition)
    (h : makeCondCore ft k o v = .ok (.single c)) :
    addTopFilter ft b (.cond k o v) =
      .ok (if isNeg o then { b with must_not := b.must_not ++ [c] }
           else { b with must := b.must ++ [c] }) := by
  simp only [addTopFilter, h, bind, Except.bind]
  split <;> rfl

lemma addTopFilter_cond_multi (ft : String → Option FieldType) (b : Buckets)
    (k o : String) (v : FilterValue) (cs : List QdrantCondition)
    (h : makeCondCore ft k o v = .ok (.multi cs)) :
    addTopFilter ft b (.cond k o v) =
      .ok (if isNeg o then { b with must_not := b.must_not ++ cs }
           else { b with must := b.must ++ cs }) := by
  simp only [addTopFilter, h, bind, Except.bind]
  split <;> rfl

/-- Claim C4: bare (ungrouped) conditions with non-None values route as
follows: `==` yields exactly one exact-match condition in must and
nothing elsewhere; `!=`/`not_in` put their translated condition in
must-not (for `not_in` on an integer field with values [1,2,3], a
single except-[1,2,3] condition); every other operator whose
translation yields a condition (or a condition list, as contains_all
does) populates must. -/
theorem c4_bare_condition_routing :
    (∀ (ft : String → Option FieldType) (f : String) (v : FilterValue),
      v ≠ FilterValue.none →
      buildQdrantFilter ft [.cond f "==" v] =
        .ok (some ⟨[.matchValue f v], [], []⟩))
    ∧ (∀ (ft : String → Option FieldType) (f op : String) (v : FilterValue)
        (c : QdrantCondition), (op = "!=" ∨ op = "not_in") →
        makeCondCore ft f op v = .ok (.single c) →
        buildQdrantFilter ft [.cond f op v] = .ok (some ⟨[], [c], []⟩))
    ∧ (∀ (ft : String → Option FieldType) (f : String),
        ft f = some FieldType.integer →
        buildQdrantFilter ft [.cond f "not_in" (.list [.int 1, .int 2, .int 3])] =
          .ok (some ⟨[], [.matchExcept f [.int 1, .int 2, .int 3]], []⟩))
    ∧ (∀ (ft : String → Option FieldType) (f op : String) (v : FilterValue)
        (c : QdrantCondition), op ≠ "!=" → op ≠ "not_in" →
        makeCondCore ft f op v = .ok (.single c) →
        buildQdrantFilter ft [.cond f op v] = .ok (some ⟨[c], [], []⟩))
    ∧ (∀ (ft : String → Option FieldType) (f op : String) (v : FilterValue)
        (cs : List QdrantCondition), op ≠ "!=" → op ≠ "not_in" →
        makeCondCore ft f op v = .ok (.multi cs) →
        buildQdrantFilter ft [.cond f op v] = .ok (some ⟨cs, [], []⟩)) := by
  refine ⟨?_, ?_, ?_, ?_, ?_⟩
  · intro ft f v hv
    rw [buildQdrantFilter_singleton,
      addTopFilter_cond_single ft _ f "==" v _ (makeCondCore_eq_op ft f v hv)]
    rfl
  · intro ft f op v c hop h
    rw [buildQdrantFilter_singleton, addTopFilter_cond_single ft _ f op v c h]
    rcases hop with rfl | rfl <;> rfl
  · intro ft f hft
    have h : makeCondCore ft f "not_in" (.list [.int 1, .int 2, .int 3]) =
        .ok (.single (.matchExcept f [.int 1, .int 2, .int 3])) := by
      simp [makeCondCore, hft, asList, List.mapM, mkExcept, pyIntCast]
      rfl
    rw [buildQdrantFilter_singleton,
      addTopFilter_cond_single ft _ f "not_in" _ _ h]
    rfl
  · intro ft f op v c h1 h2 h
    rw [buildQdrantFilter_singleton, addTopFilter_cond_single ft _ f op v c h]
    have : isNeg op = false := by simp [isNeg, h1, h2]
    rw [this]
    rfl
  · intro ft f op v cs h1 h2 h
    rw [buildQdrantFilter_singleton, addTopFilter_cond_multi ft _ f op v cs h]
    have : isNeg op = false := by simp [isNeg, h1, h2]
    rw [this]
    rfl

/-- Witness for C4 at concrete inputs: an equality condition on `title`,
a `!=` on `title`, `not_in` on an integer field `n`, a `>` range on `r`
and a `contains_all` on `tags`. -/
theorem c4_bare_condition_routing_witness :
    (buildQdrantFilter (fun _ => Option.none) [.cond "title" "==" (.str "x")] =
      .ok (some ⟨[.matchValue "title" (.str "x")], [], []⟩))
    ∧ (buildQdrantFilter (fun _ => Option.none) [.cond "title" "!=" (.str "x")] =
      .ok (some ⟨[], [.matchValue "title" (.str "x")], []⟩))
    ∧ (buildQdrantFilter (fun _ => some FieldType.integer)
        [.cond "n" "not_in" (.list [.int 1, .int 2, .int 3])] =
      .ok (some ⟨[], [.matchExcept "n" [.int 1, .int 2, .int 3]], []⟩))
    ∧ (buildQdrantFilter (fun _ => Option.none) [.cond "r" ">" (.int 4)] =
      .ok (some ⟨[.range "r" (some (.int 4)) Option.none Option.none Option.none], [], []⟩))
    ∧ (buildQdrantFilter (fun _ => Option.none)
        [.cond "tags" "contains_all" (.list [.str "a", .str "b"])] =
      .ok (some ⟨[.matchValue "tags" (.str "a"), .matchValue "tags" (.str "b")], [], []⟩)) :=
  ⟨c4_bare_condition_routing.1 _ "title" (.str "x") (by simp),
   c4_bare_condition_routing.2.1 _ "title" "!=" (.str "x") _ (Or.inl rfl) rfl,
   c4_bare_condition_routing.2.2.1 _ "n" rfl,
   c4_bare_condition_routing.2.2.2.1 _ "r" ">" (.int 4) _ (by simp) (by simp) rfl,
   c4_bare_condition_routing.2.2.2.2 _ "tags" "contains_all" (.list [.str "a", .str "b"]) _
     (by simp) (by simp) rfl⟩

/-- Claim C6: a `not_in` condition on a field declared with the Float
scalar type and a non-None value always raises the capability error
(naming the field and recommending range operators) and never produces
a translated condition: both the single-condition translation and the
whole filter build yield that error. -/
theorem c6_float_not_in_rejected :
    ∀ (ft : String → Option FieldType) (key : String) (v : FilterValue),
      ft key = some FieldType.float → v ≠ FilterValue.none →
      makeCondCore ft key "not_in" v = .error (floatNotInMsg key)
      ∧ buildQdrantFilter ft [.cond key "not_in" v] = .error (floatNotInMsg key) := by
  intro ft key v hft hv
  have h : makeCondCore ft key "not_in" v = .error (floatNotInMsg key) := by
    cases v <;> simp_all [makeCondCore]
  refine ⟨h, ?_⟩
  rw [buildQdrantFilter_singleton]
  simp [addTopFilter, h, bind, Except.bind, Except.map]

/-- Witness for C6: `not_in` on float field `price` with values
`[1.5, 2.5]` raises the capability error. -/
theorem c6_float_not_in_rejected_witness :
    buildQdrantFilter (fun _ => some FieldType.float)
      [.cond "price" "not_in" (.list [.float (3/2), .float (5/2)])] =
    .error (floatNotInMsg "price") :=
  (c6_float_not_in_rejected (fun _ => some FieldType.float) "price"
    (.list [.float (3/2), .float (5/2)]) rfl (by simp)).2

lemma addTopFilter_none_val (ft : String → Option FieldType) (b : Buckets)
    (k o : String) : addTopFilter ft b (.cond k o FilterValue.none) = pure b := by
  simp [addTopFilter, makeCondCore_none_val, bind, Except.bind]

lemma addGroupChild_none_val (ft : String → Option FieldType) (logic : String)
    (b : Buckets) (child : PyFilter) (h : isNoneValue (valueOf child) = true) :
    addGroupChild ft logic b child = pure b := by
  simp [addGroupChild, makeQdrantCondition_of_none ft child h, bind, Except.bind]

lemma addTopFilter_group_skip (ft : String → Option FieldType) (logic : String)
    (cs1 cs2 : List PyFilter) (k o : String) (b : Buckets) :
    addTopFilter ft b (.group logic (cs1 ++ PyFilter.cond k o FilterValue.none :: cs2)) =
      addTopFilter ft b (.group logic (cs1 ++ cs2)) := by
  show List.foldlM _ b _ = List.foldlM _ b _
  rw [List.foldlM_append, List.foldlM_append]
  rcases h : List.foldlM (addGroupChild ft logic) b cs1 with e | b2
  · simp [h, bind, Except.bind]
  · simp [h, bind, Except.bind, List.foldlM_cons, pure, Except.pure,
      addGroupChild_none_val ft logic b2 (PyFilter.cond k o FilterValue.none) rfl]

/-- Claim C7: a Filter Condition whose value is None is skipped
entirely: its translation is Python None with no error raised, and its
presence anywhere in the top-level filter list, or among the children
of a group, leaves the built buckets unchanged. -/
theorem c7_none_value_skipped :
    (∀ (ft : String → Option FieldType) (key op : String),
      makeCondCore ft key op FilterValue.none = .ok .none)
    ∧ (∀ (ft : String → Option FieldType) (fs1 fs2 : List PyFilter) (key op : String),
        buildBuckets ft (fs1 ++ PyFilter.cond key op FilterValue.none :: fs2) =
          buildBuckets ft (fs1 ++ fs2))
    ∧ (∀ (ft : String → Option FieldType) (fs1 fs2 : List PyFilter)
        (logic : String) (cs1 cs2 : List PyFilter) (key op : String),
        buildBuckets ft
            (fs1 ++ PyFilter.group logic (cs1 ++ PyFilter.cond key op FilterValue.none :: cs2) :: fs2) =
          buildBuckets ft (fs1 ++ PyFilter.group logic (cs1 ++ cs2) :: fs2)) := by
  refine ⟨fun ft key op => makeCondCore_none_val ft key op, ?_, ?_⟩
  · intro ft fs1 fs2 key op
    unfold buildBuckets
    rw [List.foldlM_append, List.foldlM_append]
    rcases h : List.foldlM (addTopFilter ft) (⟨[], [], []⟩ : Buckets) fs1 with e | b
    · simp [h, bind, Except.bind]
    · simp [h, bind, Except.bind, List.foldlM_cons, pure, Except.pure, addTopFilter_none_val]
  · intro ft fs1 fs2 logic cs1 cs2 key op
    unfold buildBuckets
    rw [List.foldlM_append, List.foldlM_append]
    rcases h : List.foldlM (addTopFilter ft) (⟨[], [], []⟩ : Buckets) fs1 with e | b
    · simp [h, bind, Except.bind]
    · simp only [h, bind, Except.bind, List.foldlM_cons]
      rw [addTopFilter_group_skip]

lemma group_fold_all_none (ft : String → Option FieldType) (logic : String) :
    ∀ (cs : List PyFilter) (b : Buckets),
      (cs.all fun c => isNoneValue (valueOf c)) = true →
      List.foldlM (addGroupChild ft logic) b cs = pure b := by
  intro cs
  induction cs with
  | nil => intro b _; rfl
  | cons c rest ih =>
    intro b h
    rw [List.all_cons, Bool.and_eq_true] at h
    rw [List.foldlM_cons, addGroupChild_none_val ft logic b c h.1]
    simpa using ih b h.2

lemma buildBuckets_all_skipped (ft : String → Option FieldType) :
    ∀ (fs : List PyFilter) (b : Buckets),
      (fs.all skippedTop) = true →
      List.foldlM (addTopFilter ft) b fs = pure b := by
  intro fs
  induction fs with
  | nil => intro b _; rfl
  | cons f rest ih =>
    intro b h
    rw [List.all_cons, Bool.and_eq_true] at h
    have hstep : addTopFilter ft b f = pure b := by
      cases f with
      | cond k o v =>
        have : v = FilterValue.none := by
          cases v <;> simp_all [skippedTop, isNoneValue]
        rw [this]
        exact addTopFilter_none_val ft b k o
      | group logic cs =>
        exact group_fold_all_none ft logic cs b h.1
    rw [List.foldlM_cons, hstep]
    simpa using ih b h.2

/-- Claim C8: with no attached filters, building the native filter
yields no filter at all (`None`); when filters are attached but every
condition is skipped (all values None, in bare conditions and inside
groups alike), it yields a filter whose three buckets are all empty
lists — never null buckets. -/
theorem c8_empty_or_all_skipped :
    (∀ (ft : String → Option FieldType), buildQdrantFilter ft [] = .ok Option.none)
    ∧ (∀ (ft : String → Option FieldType) (fs : List PyFilter),
        fs ≠ [] → (fs.all skippedTop) = true →
        buildQdrantFilter ft fs = .ok (some ⟨[], [], []⟩)) := by
  constructor
  · intro ft; rfl
  · intro ft fs hne hskip
    unfold buildQdrantFilter
    rw [if_neg (by simpa using hne)]
    rw [buildBuckets, buildBuckets_all_skipped ft fs ⟨[], [], []⟩ hskip]
    rfl

/-- Witness for C8: a query with one value-None condition and one group
whose children all carry value None builds the empty-bucket filter. -/
theorem c8_empty_or_all_skipped_witness :
    buildQdrantFilter (fun _ => Option.none)
      [.cond "a" "==" FilterValue.none,
       .group "or" [.cond "b" ">" FilterValue.none, .cond "c" "in" FilterValue.none]] =
    .ok (some ⟨[], [], []⟩) :=
  c8_empty_or_all_skipped.2 (fun _ => Option.none) _ (by simp) (by rfl)

/-- The claim of C5, rendered as stated: for every Filter Group, under
`and` logic each child whose translation yields a single condition is
distributed into must, or into must-not when the child operator is
negative (`!=`, `not_in`); under `or` logic the whole group lands in
the should bucket as a single nested alternative (at most one should
entry for the group). -/
def c5ClaimStatement : Prop :=
  ∀ (ft : String → Option FieldType) (logic : String) (children : List PyFilter)
    (b : Buckets),
    buildBuckets ft [.group logic children] = .ok b →
    ((logic = "and" →
      ∀ (child : PyFilter) (c : QdrantCondition), child ∈ children →
        makeQdrantCondition ft child = .ok (.single c) →
        (isNeg (opOf child) = true → c ∈ b.must_not)
        ∧ (isNeg (opOf child) = false → c ∈ b.must))
    ∧ (logic = "or" → b.should.length ≤ 1))

/-- Counterexample to C5: in the group `FilterGroup("and", [a != 1])`
the source places the translated condition of the negative-operator
child into must (the group branch of `_build_qdrant_filter` routes
single conditions by group logic only, never into must-not), so the
claimed must-not routing is false; likewise
`FilterGroup("or", [a == 1, b == 2])` puts two separate entries into
should, not one nested alternative. -/
theorem c5_counterexample : ¬ c5ClaimStatement := by
  intro h
  have hb : buildBuckets (fun _ => Option.none)
      [.group "and" [.cond "a" "!=" (.int 1)]] =
      .ok ⟨[.matchValue "a" (.int 1)], [], []⟩ := rfl
  have h1 := (h _ _ _ _ hb).1 rfl (.cond "a" "!=" (.int 1))
    (.matchValue "a" (.int 1)) (by simp) rfl
  have h2 := h1.1 rfl
  simp at h2

/-- Claim C5 amended: for a Filter Group each child whose translation
yields a single condition is routed by the group logic alone — into
must when the logic is the `and` token, regardless of the child
operator (negative operators included), and otherwise appended
individually to should, one entry per child rather than a single
nested alternative. -/
theorem c5_amended_group_routing :
    ∀ (ft : String → Option FieldType) (logic : String)
      (children : List PyFilter) (cs : List QdrantCondition),
      List.Forall₂ (fun child c => makeQdrantCondition ft child = .ok (.single c))
        children cs →
      buildBuckets ft [.group logic children] =
        .ok (if logic = "and" then ⟨cs, [], []⟩ else ⟨[], [], cs⟩) := by
  have key : ∀ (ft : String → Option FieldType) (logic : String)
      (children : List PyFilter) (cs : List QdrantCondition),
      List.Forall₂ (fun child c => makeQdrantCondition ft child = .ok (.single c))
        children cs →
      ∀ b : Buckets,
        List.foldlM (addGroupChild ft logic) b children =
          .ok (if logic = "and" then { b with must := b.must ++ cs }
               else { b with should := b.should ++ cs }) := by
    intro ft logic children cs hf
    induction hf with
    | nil =>
      intro b
      split <;> simp [List.foldlM_nil, pure, Except.pure]
    | @cons child c children2 cs2 hc _ ih =>
      intro b
      rw [List.foldlM_cons]
      have hstep : addGroupChild ft logic b child =
          .ok (if logic = "and" then { b with must := b.must ++ [c] }
               else { b with should := b.should ++ [c] }) := by
        simp only [addGroupChild, hc, bind, Except.bind]
        split <;> rfl
      rw [hstep]
      by_cases hl : logic = "and"
      · subst hl
        simp only [if_pos rfl] at *
        show Except.bind _ _ = _
        simp only [Except.bind]
        rw [ih]
        simp
      · simp only [if_neg hl] at *
        show Except.bind _ _ = _
        simp only [Except.bind]
        rw [ih]
        simp [if_neg hl]
  intro ft logic children cs hf
  show List.foldlM _ _ _ = _
  rw [List.foldlM_cons]
  have := key ft logic children cs hf ⟨[], [], []⟩
  show Except.bind _ _ = _
  rw [show addTopFilter ft ⟨[], [], []⟩ (.group logic children) =
      List.foldlM (addGroupChild ft logic) ⟨[], [], []⟩ children from rfl, this]
  split <;> rfl

/-- Witness for the amended C5: the and-group `[a != 1]` puts the
condition into must; the or-group `[a == 1, b == 2]` puts both
conditions individually into should. -/
theorem c5_amended_group_routing_witness :
    buildBuckets (fun _ => Option.none) [.group "and" [.cond "a" "!=" (.int 1)]] =
      .ok ⟨[.matchValue "a" (.int 1)], [], []⟩
    ∧ buildBuckets (fun _ => Option.none)
        [.group "or" [.cond "a" "==" (.int 1), .cond "b" "==" (.int 2)]] =
      .ok ⟨[], [], [.matchValue "a" (.int 1), .matchValue "b" (.int 2)]⟩ :=
  ⟨c5_amended_group_routing (fun _ => Option.none) "and" _ [.matchValue "a" (.int 1)]
    (List.forall₂_cons.mpr ⟨rfl, List.Forall₂.nil⟩),
   c5_amended_group_routing (fun _ => Option.none) "or" _
    [.matchValue "a" (.int 1), .matchValue "b" (.int 2)]
    (List.forall₂_cons.mpr ⟨rfl, List.forall₂_cons.mpr ⟨rfl, List.Forall₂.nil⟩⟩)⟩

/-! ### Identifier-reconciliation lemmas -/

lemma toHexDigits_length (k : Nat) : ∀ n, (toHexDigits n k).length = k := by
  induction k with
  | zero => intro n; rfl
  | succ k ih =>
    intro n
    simp [toHexDigits, ih]

lemma isLowerHexDigit_hexChar (n : Nat) : isLowerHexDigit (hexChar n) = true := by
  unfold hexChar
  have h : n % 16 < 16 := Nat.mod_lt _ (by norm_num)
  generalize hm : n % 16 = m at h ⊢
  interval_cases m <;> decide

lemma toHexDigits_hex (k : Nat) : ∀ n, ∀ c ∈ toHexDigits n k, isLowerHexDigit c = true := by
  induction k with
  | zero => intro n c hc; simp [toHexDigits] at hc
  | succ k ih =>
    intro n c hc
    simp only [toHexDigits, List.mem_append, List.mem_singleton] at hc
    rcases hc with hc | rfl
    · exact ih _ c hc
    · exact isLowerHexDigit_hexChar n

lemma toLower_of_hexOrDash (c : Char) (h : isLowerHexDigit c = true ∨ c = '-') :
    Char.toLower c = c := by
  unfold Char.toLower
  rw [if_neg]
  rcases h with h | rfl
  · simp only [isLowerHexDigit, decide_eq_true_eq] at h
    intro hcon
    rcases hcon with ⟨h1, h2⟩
    have e1 : (65 : UInt32) ≤ c.val := h1
    have e2 : c.val ≤ (90 : UInt32) := h2
    have n1 : 65 ≤ c.toNat := e1
    have n2 : c.toNat ≤ 90 := e2
    omega
  · decide

lemma hexRun_exact : ∀ (l rest : List Char), (∀ c ∈ l, isLowerHexDigit c = true) →
    hexRun l.length (l ++ rest) = some rest := by
  intro l
  induction l with
  | nil => intro rest _; rfl
  | cons c t ih =>
    intro rest h
    simp only [List.length_cons, List.cons_append, hexRun]
    rw [if_pos (h c (by simp))]
    exact ih rest fun x hx => h x (by simp [hx])

lemma map_toLower_id (l : List Char)
    (h : ∀ c ∈ l, isLowerHexDigit c = true ∨ c = '-') : l.map Char.toLower = l := by
  induction l with
  | nil => rfl
  | cons c t ih =>
    simp only [List.map_cons, toLower_of_hexOrDash c (h c (by simp)), List.cons.injEq,
      true_and]
    exact ih fun x hx => h x (by simp [hx])

lemma reMatchesUUID_structured (g1 g2 g3 g4 g5 : List Char)
    (hl1 : g1.length = 8) (hl2 : g2.length = 4) (hl3 : g3.length = 4)
    (hl4 : g4.length = 4) (hl5 : g5.length = 12)
    (hx1 : ∀ c ∈ g1, isLowerHexDigit c = true)
    (hx2 : ∀ c ∈ g2, isLowerHexDigit c = true)
    (hx3 : ∀ c ∈ g3, isLowerHexDigit c = true)
    (hx4 : ∀ c ∈ g4, isLowerHexDigit c = true)
    (hx5 : ∀ c ∈ g5, isLowerHexDigit c = true) :
    reMatchesUUID (String.mk (g1 ++ '-' :: (g2 ++ '-' :: (g3 ++ '-' :: (g4 ++ '-' :: g5)))))
      = true := by
  unfold reMatchesUUID
  have hdata : (String.mk (g1 ++ '-' :: (g2 ++ '-' :: (g3 ++ '-' :: (g4 ++ '-' :: g5))))).data
      = g1 ++ '-' :: (g2 ++ '-' :: (g3 ++ '-' :: (g4 ++ '-' :: g5))) := rfl
  rw [hdata]
  have hfix : (g1 ++ '-' :: (g2 ++ '-' :: (g3 ++ '-' :: (g4 ++ '-' :: g5)))).map Char.toLower
      = g1 ++ '-' :: (g2 ++ '-' :: (g3 ++ '-' :: (g4 ++ '-' :: g5))) := by
    apply map_toLower_id
    intro c hc
    simp only [List.mem_append, List.mem_cons] at hc
    rcases hc with h | rfl | h | rfl | h | rfl | h | rfl | h
    · exact Or.inl (hx1 c h)
    · exact Or.inr rfl
    · exact Or.inl (hx2 c h)
    · exact Or.inr rfl
    · exact Or.inl (hx3 c h)
    · exact Or.inr rfl
    · exact Or.inl (hx4 c h)
    · exact Or.inr rfl
    · exact Or.inl (hx5 c h)
  rw [hfix]
  have e1 : hexRun 8 (g1 ++ '-' :: (g2 ++ '-' :: (g3 ++ '-' :: (g4 ++ '-' :: g5))))
      = some ('-' :: (g2 ++ '-' :: (g3 ++ '-' :: (g4 ++ '-' :: g5)))) := by
    rw [← hl1]; exact hexRun_exact g1 _ hx1
  have e2 : hexRun 4 (g2 ++ '-' :: (g3 ++ '-' :: (g4 ++ '-' :: g5)))
      = some ('-' :: (g3 ++ '-' :: (g4 ++ '-' :: g5))) := by
    rw [← hl2]; exact hexRun_exact g2 _ hx2
  have e3 : hexRun 4 (g3 ++ '-' :: (g4 ++ '-' :: g5))
      = some ('-' :: (g4 ++ '-' :: g5)) := by
    rw [← hl3]; exact hexRun_exact g3 _ hx3
  have e4 : hexRun 4 (g4 ++ '-' :: g5) = some ('-' :: g5) := by
    rw [← hl4]; exact hexRun_exact g4 _ hx4
  have e5 : hexRun 12 g5 = some [] := by
    have := hexRun_exact g5 [] hx5
    rw [List.append_nil, hl5] at this
    exact this
  unfold uuidPatternRest
  simp only [e1, e2, e3, e4, e5, Option.bind_eq_bind, Option.some_bind]

lemma reMatchesUUID_uuidStr (u : UUIDv) : reMatchesUUID (uuidStr u) = true := by
  have hlen : (toHexDigits u.val 32).length = 32 := toHexDigits_length 32 u.val
  have hhex := toHexDigits_hex 32 u.val
  exact reMatchesUUID_structured _ _ _ _ _
    (by rw [List.length_take, hlen]; decide)
    (by rw [List.length_take, List.length_drop, hlen]; decide)
    (by rw [List.length_take, List.length_drop, hlen]; decide)
    (by rw [List.length_take, List.length_drop, hlen]; decide)
    (by rw [List.length_drop, hlen])
    (fun c hc => hhex c (List.take_subset _ _ hc))
    (fun c hc => hhex c (List.drop_subset _ _ (List.take_subset _ _ hc)))
    (fun c hc => hhex c (List.drop_subset _ _ (List.take_subset _ _ hc)))
    (fun c hc => hhex c (List.drop_subset _ _ (List.take_subset _ _ hc)))
    (fun c hc => hhex c (List.drop_subset _ _ hc))

/-- Modelled from the spec (the claim of C3, read strictly): a UUID is
returned as its canonical string form; a string already in canonical
(lowercase) UUID textual form is returned unchanged; a non-negative
integer is returned unchanged; and every other input maps to the
name-based UUID string of a fixed namespace and its str form. -/
def reconcileSpecStrict : IdValue → IdValue
  | .uuid u => .str (uuidStr u)
  | .str s =>
    if isCanonicalUUIDString s then .str s
    else .str (uuidStr (uuid5 NAMESPACE_DNS s))
  | .int n =>
    if 0 ≤ n then .int n
    else .str (uuidStr (uuid5 NAMESPACE_DNS (toString n)))
  | .other r => .str (uuidStr (uuid5 NAMESPACE_DNS r))

/-- The claim of C3, as stated: identifier reconciliation coincides
everywhere with the strict case analysis of the spec. -/
def c3ClaimStatement : Prop :=
  ∀ x : IdValue, convert_id_for_qdrant x = reconcileSpecStrict x

set_option maxRecDepth 4000 in
/-- Counterexample to C3 as stated: the all-uppercase string
AAAAAAAA-AAAA-AAAA-AAAA-AAAAAAAAAAAA is not in canonical UUID textual
form (canonical form is lowercase), so the claim sends it to the
name-based UUID of its str form; the source, however, matches its
regex against the lowercased input and returns the string unchanged. -/
theorem c3_counterexample : ¬ c3ClaimStatement := by
  intro h
  have hx := h (.str "AAAAAAAA-AAAA-AAAA-AAAA-AAAAAAAAAAAA")
  exact absurd hx (by decide)

/-- Modelled from the spec, amended as the counterexample forces: a
string whose lowercase form matches the UUID textual pattern (with one
trailing newline tolerated, the semantics of the anchored regex match
the source performs) is returned unchanged; everything else is exactly
the strict case analysis. -/
def reconcileSpecAmended : IdValue → IdValue
  | .uuid u => .str (uuidStr u)
  | .str s =>
    if reMatchesUUID s then .str s
    else .str (uuidStr (uuid5 NAMESPACE_DNS s))
  | .int n =>
    if 0 ≤ n then .int n
    else .str (uuidStr (uuid5 NAMESPACE_DNS (toString n)))
  | .other r => .str (uuidStr (uuid5 NAMESPACE_DNS r))

/-- Claim C3 amended: identifier reconciliation is the pure case
analysis with the UUID-form test read case-insensitively: a UUID object
becomes its canonical string, a string matching the UUID pattern after
lowercasing is returned unchanged, a non-negative integer is returned
unchanged, and every other input maps to the version-5-style UUID
string of the fixed namespace and its str form. Being a pure function
of its input, reconciling the same identifier twice yields the same
engine identifier. -/
theorem c3_amended_reconcile_case_analysis :
    ∀ x : IdValue, convert_id_for_qdrant x = reconcileSpecAmended x := by
  intro x
  cases x <;> rfl

/-- Claim C10: identifier reconciliation is idempotent — every output
(a canonical UUID string, a string already accepted as UUID-form, or a
non-negative integer) is a fixed point of the function. -/
theorem c10_reconcile_idempotent :
    ∀ x : IdValue, convert_id_for_qdrant (convert_id_for_qdrant x) = convert_id_for_qdrant x := by
  intro x
  cases x with
  | uuid u => simp [convert_id_for_qdrant, reMatchesUUID_uuidStr]
  | str s =>
    by_cases h : reMatchesUUID s
    · simp [convert_id_for_qdrant, h]
    · simp [convert_id_for_qdrant, h, reMatchesUUID_uuidStr]
  | int n =>
    by_cases h : (0 : Int) ≤ n
    · simp [convert_id_for_qdrant, h]
    · simp [convert_id_for_qdrant, h, reMatchesUUID_uuidStr]
  | other r => simp [convert_id_for_qdrant, reMatchesUUID_uuidStr]

/-! ### Fusion-accumulator lemmas -/

/-- `all_scores.get(pid, 0.0)` on the insertion-ordered dict. -/
def scoreOf : List (String × ℚ) → String → ℚ
  | [], _ => 0
  | e :: rest, pid => if e.1 = pid then e.2 else scoreOf rest pid

lemma scoreOf_addScore (acc : List (String × ℚ)) (q pid : String) (s : ℚ) :
    scoreOf (addScore acc q s) pid = scoreOf acc pid + (if q = pid then s else 0) := by
  induction acc with
  | nil =>
    by_cases h : q = pid <;> simp [addScore, scoreOf, h]
  | cons e rest ih =>
    by_cases he : e.1 = q
    · rw [addScore, if_pos he]
      by_cases hp : e.1 = pid
      · rw [scoreOf, if_pos hp, scoreOf, if_pos hp, if_pos (he ▸ hp)]
      · rw [scoreOf, if_neg hp, scoreOf, if_neg hp,
          if_neg (fun hq => hp (he.trans hq)), add_zero]
    · rw [addScore, if_neg he]
      by_cases hp : e.1 = pid
      · rw [scoreOf, if_pos hp, scoreOf, if_pos hp,
          if_neg (fun hq => he (hp.trans hq.symm)), add_zero]
      · rw [scoreOf, if_neg hp, scoreOf, if_neg hp, ih]

lemma mem_keys_addScore (acc : List (String × ℚ)) (q pid : String) (s : ℚ) :
    pid ∈ (addScore acc q s).map Prod.fst ↔ pid ∈ acc.map Prod.fst ∨ pid = q := by
  induction acc with
  | nil => simp [addScore, eq_comm]
  | cons e rest ih =>
    by_cases he : e.1 = q
    · rw [addScore, if_pos he]
      simp only [List.map_cons, List.mem_cons]
      constructor
      · rintro (h | h)
        · exact Or.inl (Or.inl h)
        · exact Or.inl (Or.inr h)
      · rintro ((h | h) | rfl)
        · exact Or.inl h
        · exact Or.inr h
        · exact Or.inl (he ▸ rfl)
    · rw [addScore, if_neg he]
      simp only [List.map_cons, List.mem_cons] at ih ⊢
      rw [ih]
      tauto

lemma nodup_keys_addScore (acc : List (String × ℚ)) (q : String) (s : ℚ)
    (h : (acc.map Prod.fst).Nodup) : ((addScore acc q s).map Prod.fst).Nodup := by
  induction acc with
  | nil => simp [addScore]
  | cons e rest ih =>
    rw [List.map_cons, List.nodup_cons] at h
    by_cases he : e.1 = q
    · rw [addScore, if_pos he, List.map_cons, List.nodup_cons]
      exact h
    · rw [addScore, if_neg he, List.map_cons, List.nodup_cons]
      refine ⟨?_, ih h.2⟩
      rw [mem_keys_addScore]
      rintro (hm | rfl)
      · exact h.1 hm
      · exact he rfl

lemma scoreOf_of_mem (acc : List (String × ℚ)) (pid : String) (v : ℚ)
    (hnd : (acc.map Prod.fst).Nodup) (hm : (pid, v) ∈ acc) : scoreOf acc pid = v := by
  induction acc with
  | nil => simp at hm
  | cons e rest ih =>
    rw [List.map_cons, List.nodup_cons] at hnd
    rcases List.mem_cons.mp hm with rfl | hm2
    · rw [scoreOf, if_pos rfl]
    · rw [scoreOf]
      have hne : e.1 ≠ pid := by
        intro he
        exact hnd.1 (he ▸ List.mem_map.mpr ⟨(pid, v), hm2, rfl⟩)
      rw [if_neg hne]
      exact ih hnd.2 hm2

lemma scoreOf_hits_foldl (w : ℚ) (pid : String) :
    ∀ (hits : List Point) (acc : List (String × ℚ)),
      scoreOf (hits.foldl (fun a h => addScore a h.pid (h.score * w)) acc) pid =
        scoreOf acc pid +
          ((hits.filter fun h => h.pid = pid).map fun h => h.score * w).sum := by
  intro hits
  induction hits with
  | nil => intro acc; simp
  | cons h t ih =>
    intro acc
    rw [List.foldl_cons, ih]
    rw [scoreOf_addScore]
    by_cases hp : h.pid = pid
    · rw [if_pos hp, List.filter_cons_of_pos (by simp [hp]), List.map_cons, List.sum_cons]
      ring
    · rw [if_neg hp, List.filter_cons_of_neg (by simp [hp]), add_zero]

lemma nodup_keys_hits_foldl (w : ℚ) :
    ∀ (hits : List Point) (acc : List (String × ℚ)),
      (acc.map Prod.fst).Nodup →
      (((hits.foldl (fun a h => addScore a h.pid (h.score * w)) acc)).map Prod.fst).Nodup := by
  intro hits
  induction hits with
  | nil => intro acc h; exact h
  | cons h t ih =>
    intro acc hnd
    rw [List.foldl_cons]
    exact ih _ (nodup_keys_addScore _ _ _ hnd)

/-- The score contribution a single (already normalized) weighted field
adds to identifier `pid`, summed over all hits with that identifier:
zero when the field is skipped (non-positive weight or no query
vector) or its search fails. -/
def fieldContributionSum (searchFn : SearchRequest → Except String (List Point))
    (coll : String) (p : CombinedParams) (qf : Option Buckets) (pid : String)
    (fw : String × ℚ) : ℚ :=
  if fw.2 ≤ 0 then 0
  else
    match p.query_vectors.lookup fw.1 with
    | Option.none => 0
    | some qv =>
      match searchFn (mkFusionRequest coll p qf fw.1 qv) with
      | .error _ => 0
      | .ok hits => ((hits.filter fun h => h.pid = pid).map fun h => h.score * fw.2).sum

/-- The score contribution of one weighted field to identifier `pid` in
the form of the claim: the score of the hit the field returned for that
identifier times the normalized weight, and zero when the field is not
searched, its search fails, or the identifier is unseen by it. -/
def fieldContribution (searchFn : SearchRequest → Except String (List Point))
    (coll : String) (p : CombinedParams) (qf : Option Buckets) (pid : String)
    (fw : String × ℚ) : ℚ :=
  if fw.2 ≤ 0 then 0
  else
    match p.query_vectors.lookup fw.1 with
    | Option.none => 0
    | some qv =>
      match searchFn (mkFusionRequest coll p qf fw.1 qv) with
      | .error _ => 0
      | .ok hits =>
        match hits.find? fun h => h.pid = pid with
        | some h => h.score * fw.2
        | Option.none => 0

lemma filter_sum_eq_find (w : ℚ) (pid : String) :
    ∀ hits : List Point, (hits.map Point.pid).Nodup →
      ((hits.filter fun h => h.pid = pid).map fun h => h.score * w).sum =
        (match hits.find? fun h => h.pid = pid with
         | some h => h.score * w
         | Option.none => 0) := by
  intro hits
  induction hits with
  | nil => intro _; simp
  | cons h t ih =>
    intro hnd
    rw [List.map_cons, List.nodup_cons] at hnd
    by_cases hp : h.pid = pid
    · rw [List.filter_cons_of_pos (by simp [hp]), List.find?_cons_of_pos _ (by simp [hp])]
      have ht : t.filter (fun x => decide (x.pid = pid)) = [] := by
        rw [List.filter_eq_nil_iff]
        intro x hx
        simp only [decide_eq_true_eq]
        intro hxp
        exact hnd.1 (hp ▸ hxp ▸ List.mem_map.mpr ⟨x, hx, rfl⟩)
      rw [ht]
      simp
    · rw [List.filter_cons_of_neg (by simp [hp]), List.find?_cons_of_neg _ (by simp [hp])]
      exact ih hnd.2

lemma scoreOf_fusion_foldl (searchFn : SearchRequest → Except String (List Point))
    (coll : String) (p : CombinedParams) (qf : Option Buckets) (pid : String) :
    ∀ (l : List (String × ℚ)) (st : List SearchRequest × List (String × ℚ)),
      scoreOf ((l.foldl (fusionStep searchFn coll p qf) st).2) pid =
        scoreOf st.2 pid + (l.map (fieldContributionSum searchFn coll p qf pid)).sum := by
  intro l
  induction l with
  | nil => intro st; simp
  | cons fw t ih =>
    intro st
    rw [List.foldl_cons, ih, List.map_cons, List.sum_cons]
    have : scoreOf ((fusionStep searchFn coll p qf st fw).2) pid =
        scoreOf st.2 pid + fieldContributionSum searchFn coll p qf pid fw := by
      unfold fusionStep fieldContributionSum
      by_cases hw : fw.2 ≤ 0
      · rw [if_pos hw, if_pos hw, add_zero]
      · rw [if_neg hw, if_neg hw]
        rcases hlk : p.query_vectors.lookup fw.1 with _ | qv
        · simp only [hlk, add_zero]
        · simp only [hlk]
          rcases hs : searchFn (mkFusionRequest coll p qf fw.1 qv) with e | hits
          · simp only [hs, add_zero]
          · simp only [hs]
            exact scoreOf_hits_foldl _ _ hits st.2
    rw [this]
    ring

lemma nodup_keys_fusion_foldl (searchFn : SearchRequest → Except String (List Point))
    (coll : String) (p : CombinedParams) (qf : Option Buckets) :
    ∀ (l : List (String × ℚ)) (st : List SearchRequest × List (String × ℚ)),
      (st.2.map Prod.fst).Nodup →
      (((l.foldl (fusionStep searchFn coll p qf) st).2).map Prod.fst).Nodup := by
  intro l
  induction l with
  | nil => intro st h; exact h
  | cons fw t ih =>
    intro st hnd
    rw [List.foldl_cons]
    apply ih
    unfold fusionStep
    by_cases hw : fw.2 ≤ 0
    · rw [if_pos hw]; exact hnd
    · rw [if_neg hw]
      rcases hlk : p.query_vectors.lookup fw.1 with _ | qv
      · simp only [hlk]; exact hnd
      · simp only [hlk]
        rcases hs : searchFn (mkFusionRequest coll p qf fw.1 qv) with e | hits
        · simp only [hs]; exact hnd
        · simp only [hs]
          exact nodup_keys_hits_foldl _ hits st.2 hnd

lemma fusion_foldl_requests (searchFn : SearchRequest → Except String (List Point))
    (coll : String) (p : CombinedParams) (qf : Option Buckets)
    (P : SearchRequest → Prop)
    (hmk : ∀ fname qv, P (mkFusionRequest coll p qf fname qv)) :
    ∀ (l : List (String × ℚ)) (st : List SearchRequest × List (String × ℚ)),
      (∀ r ∈ st.1, P r) →
      ∀ r ∈ (l.foldl (fusionStep searchFn coll p qf) st).1, P r := by
  intro l
  induction l with
  | nil => intro st h; exact h
  | cons fw t ih =>
    intro st hst
    apply ih
    unfold fusionStep
    by_cases hw : fw.2 ≤ 0
    · rw [if_pos hw]; exact hst
    · rw [if_neg hw]
      rcases hlk : p.query_vectors.lookup fw.1 with _ | qv
      · simp only [hlk]; exact hst
      · simp only [hlk]
        rcases hs : searchFn (mkFusionRequest coll p qf fw.1 qv) with e | hits
        all_goals
          simp only [hs]
          intro r hr
          rcases List.mem_append.mp hr with hr | hr
        · exact hst r hr
        · rw [List.mem_singleton] at hr
          exact hr ▸ hmk fw.1 qv
        · exact hst r hr
        · rw [List.mem_singleton] at hr
          exact hr ▸ hmk fw.1 qv

lemma executeCombinedFull_ok (searchFn : SearchRequest → Except String (List Point))
    (coll : String) (ft : String → Option FieldType) (filters : List PyFilter)
    (p : CombinedParams) (qfOpt : Option Buckets)
    (hqf : buildQdrantFilter ft filters = .ok qfOpt) :
    executeCombinedFull searchFn coll ft filters p =
      .ok ((normalizeWeights p.weights).foldl (fusionStep searchFn coll p qfOpt) ([], [])) := by
  unfold executeCombinedFull
  rw [hqf]
  rfl

lemma combinedRanked_ok (searchFn : SearchRequest → Except String (List Point))
    (coll : String) (ft : String → Option FieldType) (filters : List PyFilter)
    (p : CombinedParams) (qfOpt : Option Buckets)
    (hqf : buildQdrantFilter ft filters = .ok qfOpt) :
    combinedRanked searchFn coll ft filters p =
      .ok ((sortDescByScore
        (((normalizeWeights p.weights).foldl (fusionStep searchFn coll p qfOpt) ([], [])).2)).take
          p.limit) := by
  unfold combinedRanked
  rw [executeCombinedFull_ok searchFn coll ft filters p qfOpt hqf]
  rfl

/-- Claim C1: in a fusion search, each identifier appearing in the
output carries an aggregate score equal to the sum, over exactly the
weighted fields whose per-field search returned a hit for it, of that
hit score times the normalized weight (the declared weight divided by
the total declared weight, the normalization `normalizeWeights`
performs); fields with non-positive normalized weight or without a
query vector are skipped and contribute zero, identifiers a field did
not return get no contribution from it, and a failed per-field search
contributes zero. The per-search hit lists are assumed to carry
pairwise-distinct identifiers, as the engine returns distinct points. -/
theorem c1_fusion_aggregate_scores :
    ∀ (searchFn : SearchRequest → Except String (List Point)) (coll : String)
      (ft : String → Option FieldType) (filters : List PyFilter)
      (p : CombinedParams) (qfOpt : Option Buckets) (ranked : List (String × ℚ)),
      buildQdrantFilter ft filters = .ok qfOpt →
      (∀ r hits, searchFn r = .ok hits → (hits.map Point.pid).Nodup) →
      combinedRanked searchFn coll ft filters p = .ok ranked →
      ∀ pid score, (pid, score) ∈ ranked →
        score = ((normalizeWeights p.weights).map
          (fieldContribution searchFn coll p qfOpt pid)).sum := by
  intro searchFn coll ft filters p qfOpt ranked hqf hnodup hrk pid score hm
  rw [combinedRanked_ok searchFn coll ft filters p qfOpt hqf] at hrk
  have hr := Except.ok.inj hrk
  subst hr
  set scores :=
    (((normalizeWeights p.weights)).foldl (fusionStep searchFn coll p qfOpt) ([], [])).2 with hsc
  have hm2 : (pid, score) ∈ sortDescByScore scores := List.take_subset _ _ hm
  have hm3 : (pid, score) ∈ scores :=
    (List.perm_insertionSort scoreGE scores).mem_iff.mp hm2
  have hnd : (scores.map Prod.fst).Nodup := by
    rw [hsc]
    exact nodup_keys_fusion_foldl searchFn coll p qfOpt _ ([], []) (by simp)
  have hscore : scoreOf scores pid = score := scoreOf_of_mem scores pid score hnd hm3
  have hfold := scoreOf_fusion_foldl searchFn coll p qfOpt pid (normalizeWeights p.weights) ([], [])
  have hmapeq : (normalizeWeights p.weights).map (fieldContributionSum searchFn coll p qfOpt pid)
      = (normalizeWeights p.weights).map (fieldContribution searchFn coll p qfOpt pid) := by
    apply List.map_congr_left
    intro fw _
    unfold fieldContributionSum fieldContribution
    by_cases hw : fw.2 ≤ 0
    · rw [if_pos hw, if_pos hw]
    · rw [if_neg hw, if_neg hw]
      rcases hlk : p.query_vectors.lookup fw.1 with _ | qv
      · simp only [hlk]
      · simp only [hlk]
        rcases hs : searchFn (mkFusionRequest coll p qfOpt fw.1 qv) with e | hits
        · simp only [hs]
        · simp only [hs]
          exact filter_sum_eq_find fw.2 pid hits (hnodup _ hits hs)
  rw [← hsc] at hfold
  rw [← hscore, hfold, hmapeq]
  show (0 : ℚ) + _ = _
  rw [zero_add]

/-- Claim C2: for a fusion search with requested limit L, every issued
per-field request asks for exactly three times L results and carries
the translated filter of the enclosing query (and targets its
collection); the final ranked result is the accumulated
(identifier, score) pairs sorted by score descending, truncated to at
most L entries, each of its entries coming from the accumulated
mapping. -/
theorem c2_fusion_overfetch_and_ranking :
    ∀ (searchFn : SearchRequest → Except String (List Point)) (coll : String)
      (ft : String → Option FieldType) (filters : List PyFilter)
      (p : CombinedParams) (qfOpt : Option Buckets)
      (out : List SearchRequest × List (String × ℚ)) (ranked : List (String × ℚ)),
      buildQdrantFilter ft filters = .ok qfOpt →
      executeCombinedFull searchFn coll ft filters p = .ok out →
      combinedRanked searchFn coll ft filters p = .ok ranked →
      (∀ req ∈ out.1, req.limit = p.limit * 3 ∧ req.query_filter = qfOpt
        ∧ req.collection_name = coll)
      ∧ ranked = (sortDescByScore out.2).take p.limit
      ∧ ranked.length ≤ p.limit
      ∧ List.Sorted scoreGE ranked
      ∧ (∀ x ∈ ranked, x ∈ out.2) := by
  intro searchFn coll ft filters p qfOpt out ranked hqf hfull hrk
  rw [executeCombinedFull_ok searchFn coll ft filters p qfOpt hqf] at hfull
  have ho := Except.ok.inj hfull
  subst ho
  rw [combinedRanked_ok searchFn coll ft filters p qfOpt hqf] at hrk
  have hr := Except.ok.inj hrk
  subst hr
  refine ⟨?_, rfl, ?_, ?_, ?_⟩
  · exact fusion_foldl_requests searchFn coll p qfOpt
      (fun r => r.limit = p.limit * 3 ∧ r.query_filter = qfOpt ∧ r.collection_name = coll)
      (fun fname qv => ⟨rfl, rfl, rfl⟩) _ ([], []) (fun r hr => by simp at hr)
  · rw [List.length_take]
    exact min_le_left _ _
  · exact List.Pairwise.sublist (List.take_sublist _ _) (List.sorted_insertionSort scoreGE _)
  · intro x hx
    exact (List.perm_insertionSort scoreGE _).mem_iff.mp (List.take_subset _ _ hx)

/-- Claim C9 (code bug in the get path): the all, count and fusion read
paths swallow transport failures as the claim states — a failing search
(dense single-field path) or scroll during all yields the empty list, a
failing count yields zero, and a fusion run never aborts (it always
produces a ranked result once the filter translates) while any failing
per-field search is equivalent to one returning no hits, losing only
its own contribution. The get path, however, never reaches the engine:
every call to get raises the AttributeError of the nonexistent session
method before the try block, whatever the transport would have done, so
it can never return not-found as the claim (and the unreachable
exception handler of the source itself) intends. -/
theorem c9_read_path_error_handling :
    (∀ (α : Type) (client : QClient) (ptm : Point → α) (coll : String)
      (q : QueryState) (idv : IdValue),
      queryGet client ptm coll q idv = .error getAttributeErrorMsg)
    ∧ (∀ (α : Type) (client : QClient) (ptm : Point → α) (coll : String)
        (ft : String → Option FieldType) (q : QueryState) (fname : String)
        (v : List ℚ) (qfOpt : Option Buckets) (e : String),
        q.combined = Option.none → q.vector_field = some fname →
        q.vector_value = some (.dense v) → fname ≠ "" → v ≠ [] →
        buildQdrantFilter ft q.filters = .ok qfOpt →
        client.search (singleSearchReqOf coll q fname v qfOpt) = .error e →
        queryAll client ptm coll ft q = .ok [])
    ∧ (∀ (α : Type) (client : QClient) (ptm : Point → α) (coll : String)
        (ft : String → Option FieldType) (q : QueryState) (qfOpt : Option Buckets)
        (e : String),
        q.combined = Option.none →
        (∀ fname vv, q.vector_field = some fname → q.vector_value = some vv →
          ¬(fname ≠ "" ∧ vvTruthy vv = true)) →
        buildQdrantFilter ft q.filters = .ok qfOpt →
        client.scroll (scrollReqOf coll q qfOpt) = .error e →
        queryAll client ptm coll ft q = .ok [])
    ∧ (∀ (client : QClient) (coll : String) (ft : String → Option FieldType)
        (q : QueryState) (qfOpt : Option Buckets) (e : String),
        buildQdrantFilter ft q.filters = .ok qfOpt →
        client.count ⟨coll, qfOpt⟩ = .error e →
        queryCount client coll ft q = .ok 0)
    ∧ (∀ (searchFn : SearchRequest → Except String (List Point)) (coll : String)
        (ft : String → Option FieldType) (filters : List PyFilter)
        (p : CombinedParams) (qfOpt : Option Buckets),
        buildQdrantFilter ft filters = .ok qfOpt →
        ∃ out, combinedRanked searchFn coll ft filters p = .ok out)
    ∧ (∀ (searchFn searchFn2 : SearchRequest → Except String (List Point))
        (coll : String) (ft : String → Option FieldType) (filters : List PyFilter)
        (p : CombinedParams),
        (∀ r, searchFn2 r = searchFn r ∨
          (∃ e, searchFn r = .error e ∧ searchFn2 r = .ok [])) →
        combinedRanked searchFn coll ft filters p =
          combinedRanked searchFn2 coll ft filters p) := by
  refine ⟨?_, ?_, ?_, ?_, ?_, ?_⟩
  · intro α client ptm coll q idv
    rfl
  · intro α client ptm coll ft q fname v qfOpt e hcomb hvf hvv hf hv hqf hsearch
    unfold queryAll
    have hvt : vvTruthy (.dense v) = true := by simp [vvTruthy, hv]
    simp only [hcomb, hvf, hvv]
    rw [if_pos ⟨hf, hvt⟩]
    show Except.bind _ _ = _
    rw [hqf]
    show (match client.search (singleSearchReqOf coll q fname v qfOpt) with
      | Except.ok pts => pure (pts.map ptm)
      | Except.error _ => pure ([] : List α)) = _
    rw [hsearch]
    rfl
  · intro α client ptm coll ft q qfOpt e hcomb hnv hqf hscroll
    have hsp : scrollPath client ptm coll ft q = .ok [] := by
      unfold scrollPath
      show Except.bind _ _ = _
      rw [hqf]
      show (match client.scroll (scrollReqOf coll q qfOpt) with
        | Except.ok (pts, _) => pure (pts.map ptm)
        | Except.error _ => pure ([] : List α)) = _
      rw [hscroll]
      rfl
    unfold queryAll
    rcases hvf : q.vector_field with _ | fname
    · simp only [hcomb, hvf]
      exact hsp
    · rcases hvv : q.vector_value with _ | vv
      · simp only [hcomb, hvf, hvv]
        exact hsp
      · simp only [hcomb, hvf, hvv]
        rw [if_neg (hnv fname vv hvf hvv)]
        exact hsp
  · intro client coll ft q qfOpt e hqf hcount
    unfold queryCount
    show Except.bind _ _ = _
    rw [hqf]
    show (match client.count ⟨coll, qfOpt⟩ with
      | Except.ok n => pure n
      | Except.error _ => pure 0) = _
    rw [hcount]
    rfl
  · intro searchFn coll ft filters p qfOpt hqf
    exact ⟨_, combinedRanked_ok searchFn coll ft filters p qfOpt hqf⟩
  · intro searchFn searchFn2 coll ft filters p hagree
    unfold combinedRanked executeCombinedFull
    cases hb : buildQdrantFilter ft filters with
    | error e => rfl
    | ok qf =>
      have hstep : ∀ st fw, fusionStep searchFn coll p qf st fw =
          fusionStep searchFn2 coll p qf st fw := by
        intro st fw
        unfold fusionStep
        by_cases hw : fw.2 ≤ 0
        · rw [if_pos hw, if_pos hw]
        · rw [if_neg hw, if_neg hw]
          rcases hlk : p.query_vectors.lookup fw.1 with _ | qv
          · simp only [hlk]
          · simp only [hlk]
            rcases hagree (mkFusionRequest coll p qf fw.1 qv) with heq | ⟨e, he, h2⟩
            · rw [heq]
            · simp only [he, h2, List.foldl_nil]
      have hfold : ∀ (l : List (String × ℚ)) (st : List SearchRequest × List (String × ℚ)),
          l.foldl (fusionStep searchFn coll p qf) st =
            l.foldl (fusionStep searchFn2 coll p qf) st := by
        intro l
        induction l with
        | nil => intro st; rfl
        | cons a t ih =>
          intro st
          rw [List.foldl_cons, List.foldl_cons, hstep, ih]
      show Except.map (fun st => (sortDescByScore st.2).take p.limit)
          (pure ((normalizeWeights p.weights).foldl (fusionStep searchFn coll p qf) ([], []))) =
        Except.map (fun st => (sortDescByScore st.2).take p.limit)
          (pure ((normalizeWeights p.weights).foldl (fusionStep searchFn2 coll p qf) ([], [])))
      rw [hfold]

/-! ### Concrete witness fixtures (Scenario B of the spec, and a
failing transport) -/

/-- An empty field-type table. -/
def ftEmpty : String → Option FieldType := fun _ => Option.none

/-- The engine of Scenario B: field A returns p1 at 0.9 and p2 at 0.8,
field B returns p2 at 0.9 and p3 at 0.8. -/
def searchFnB : SearchRequest → Except String (List Point) := fun r =>
  if r.query_vector.name = "A" then .ok [⟨"p1", 9/10⟩, ⟨"p2", 8/10⟩]
  else .ok [⟨"p2", 9/10⟩, ⟨"p3", 8/10⟩]

/-- Scenario B fusion parameters: weights 0.7 and 0.3. -/
def pB : CombinedParams :=
  ⟨[("A", 7/10), ("B", 3/10)], [("A", [1]), ("B", [2])], 10, Option.none⟩

/-- The expected Scenario B ranking: p2 at 0.83, p1 at 0.63, p3 at 0.24. -/
def rankedB : List (String × ℚ) :=
  [("p2", 83/100), ("p1", 63/100), ("p3", 24/100)]

/-- The requests and raw accumulated scores of the Scenario B run. -/
def outB : List SearchRequest × List (String × ℚ) :=
  ([mkFusionRequest "c" pB Option.none "A" [1], mkFusionRequest "c" pB Option.none "B" [2]],
   [("p1", 63/100), ("p2", 83/100), ("p3", 24/100)])

/-- Witness for C1 on Scenario B: the aggregate score 0.83 of p2 equals
the weighted sum of its per-field contributions. -/
theorem c1_fusion_aggregate_scores_witness :
    (83 : ℚ)/100 = ((normalizeWeights pB.weights).map
      (fieldContribution searchFnB "c" pB Option.none "p2")).sum :=
  c1_fusion_aggregate_scores searchFnB "c" ftEmpty [] pB Option.none rankedB rfl
    (fun r hits h => by
      by_cases hn : r.query_vector.name = "A"
      · simp only [searchFnB, if_pos hn, Except.ok.injEq] at h
        subst h; decide
      · simp only [searchFnB, if_neg hn, Except.ok.injEq] at h
        subst h; decide)
    (by with_unfolding_all rfl) "p2" (83/100) (by simp [rankedB])

/-- Witness for C2 on Scenario B: both issued requests over-fetch
3 x 10 results with no filter, and the ranking is the sorted truncated
accumulation. -/
theorem c2_fusion_overfetch_and_ranking_witness :
    (∀ req ∈ outB.1, req.limit = pB.limit * 3 ∧ req.query_filter = Option.none
      ∧ req.collection_name = "c")
    ∧ rankedB = (sortDescByScore outB.2).take pB.limit
    ∧ rankedB.length ≤ pB.limit
    ∧ List.Sorted scoreGE rankedB
    ∧ (∀ x ∈ rankedB, x ∈ outB.2) :=
  c2_fusion_overfetch_and_ranking searchFnB "c" ftEmpty [] pB Option.none outB rankedB
    rfl (by with_unfolding_all rfl) (by with_unfolding_all rfl)

/-- A transport whose every operation raises. -/
def clientFail : QClient :=
  ⟨fun _ => .error "boom", fun _ => .error "boom",
   fun _ => .error "boom", fun _ => .error "boom"⟩

/-- A plain query state with no vector search and no fusion attached. -/
def q0 : QueryState :=
  ⟨[], Option.none, Option.none, 10, 0, true, false, Option.none, Option.none⟩

/-- A query state carrying a dense single-field vector search. -/
def qv1 : QueryState :=
  ⟨[], some "emb", some (.dense [1]), 10, 0, true, false, Option.none, Option.none⟩

/-- Witness for C9: against the always-raising transport, get raises
the AttributeError (it never consults the transport at all), all
returns the empty list on both the vector-search and the scroll paths,
count returns zero, and a fusion whose every per-field search fails
still completes, with the same result as an engine returning no
hits. -/
theorem c9_read_path_error_handling_witness :
    queryGet clientFail (fun p => p) "c" q0 (.int 5) = .error getAttributeErrorMsg
    ∧ queryAll clientFail (fun p => p) "c" ftEmpty qv1 = .ok []
    ∧ queryAll clientFail (fun p => p) "c" ftEmpty q0 = .ok []
    ∧ queryCount clientFail "c" ftEmpty q0 = .ok 0
    ∧ (∃ out, combinedRanked (fun _ => .error "boom") "c" ftEmpty [] pB = .ok out)
    ∧ combinedRanked (fun _ => .error "boom") "c" ftEmpty [] pB =
        combinedRanked (fun _ => .ok []) "c" ftEmpty [] pB :=
  ⟨c9_read_path_error_handling.1 Point clientFail (fun p => p) "c" q0 (.int 5),
   c9_read_path_error_handling.2.1 Point clientFail (fun p => p) "c" ftEmpty
      qv1 "emb" [1] Option.none "boom" rfl rfl rfl (by decide) (by simp) rfl rfl,
   c9_read_path_error_handling.2.2.1 Point clientFail (fun p => p) "c" ftEmpty
      q0 Option.none "boom" rfl (fun fname vv h1 _ => by simp [q0] at h1) rfl rfl,
   c9_read_path_error_handling.2.2.2.1 clientFail "c" ftEmpty q0
      Option.none "boom" rfl rfl,
   c9_read_path_error_handling.2.2.2.2.1 (fun _ => .error "boom") "c" ftEmpty
      [] pB Option.none rfl,
   c9_read_path_error_handling.2.2.2.2.2 (fun _ => .error "boom")
      (fun _ => .ok []) "c" ftEmpty [] pB (fun r => Or.inr ⟨"boom", rfl, rfl⟩)⟩

end QdrantOrm
